import Mathlib

/-
Verification of the tauri-plugin-llm generation pipeline.

This file gives a shallow embedding of the plugin's core operations and
settles the frozen claims C1..C10 against it.  The embedding follows the
Rust sources:

  * models.rs          — Query / TokenUsage / ToolCall / LLMRuntimeConfig /
                         TokenizerConfig, from_hf_local_cache, validate_model_name,
                         ensure_within_cache
  * error.rs           — Error (the variants the embedded code constructs)
  * llm/runtime/mock.rs     — Mock::inference byte chunking
  * llm/runtime/local.rs    — LocalRuntime::init and ::inference, ModelWeights
  * llm/runtime/tool_call.rs — Qwen3ToolCallParser::parse
  * llm/runtime.rs     — the worker loop spawned by LLMRuntime::run_stream
  * llm.rs             — LLMService::activate / shutdown_active
  * iter.rs            — Chunks (fixed-size chunking of a token iterator)
  * llm/backend/qwen3.rs    — Qwen3Backend::clear_kv_cache

External collaborators (tokenizers, candle tensors and samplers, the
template engine, serde_json, hf_hub, the file system) are modelled as
explicit oracle parameters or, for serde_json, as an executable model of
the JSON fragment the sources exercise.  Floating point sampling state is
abstracted into the oracle that produces the next token.  All definitions
are computable so that concrete runs evaluate by rfl / decide.
-/

namespace PluginLLM

/-! ## Character and string helpers

The Rust sources use byte strings, substring search, splitting and
trimming.  Lean string library functions are partly defined by
well-founded recursion, which the kernel does not reduce, so the
embedding works on character lists with structurally recursive helpers
and wraps them for String.
-/

/-- Rust char::to_ascii_lowercase. -/
def asciiLower (c : Char) : Char :=
  if 'A' ≤ c ∧ c ≤ 'Z' then Char.ofNat (c.toNat + 32) else c

/-- Rust str::eq_ignore_ascii_case. -/
def eqIgnoreAsciiCase (a b : String) : Bool :=
  a.data.map asciiLower == b.data.map asciiLower

/-- ASCII whitespace test used by trimming (models Rust char::is_whitespace
on the inputs that occur here, which are ASCII). -/
def isWsChar (c : Char) : Bool :=
  c == ' ' || c == '\n' || c == '\t' || c == '\r'

def dropWsLeft : List Char → List Char
  | [] => []
  | c :: cs => if isWsChar c then dropWsLeft cs else c :: cs

/-- Rust str::trim (over the ASCII whitespace the inputs use). -/
def trimChars (l : List Char) : List Char :=
  (dropWsLeft (dropWsLeft l.reverse).reverse)

/-- One step of splitting: scan for the first occurrence of the pattern.
Fuel is the length of the scanned list, so the recursion is structural. -/
def splitOnCharsAux (pat : List Char) : Nat → List Char → List Char →
    List (List Char)
  | _, [], acc => [acc.reverse]
  | 0, l, acc => [(acc.reverse ++ l)]
  | fuel + 1, c :: rest, acc =>
    if pat.isPrefixOf (c :: rest) then
      acc.reverse :: splitOnCharsAux pat fuel (List.drop pat.length (c :: rest)) []
    else
      splitOnCharsAux pat fuel rest (c :: acc)

/-- Rust str::split for a non-empty pattern (same semantics as
String.splitOn): the parts between occurrences of the pattern, in order,
keeping empty parts. -/
def splitOnChars (pat l : List Char) : List (List Char) :=
  splitOnCharsAux pat l.length l []

/-- Rust str::contains for a non-empty pattern. -/
def containsSubstring (s pat : String) : Bool :=
  (splitOnChars pat.data s.data).length != 1

/-- UTF-8 encoding of one character (Rust str::as_bytes is UTF-8). -/
def charUtf8 (c : Char) : List Nat :=
  let n := c.toNat
  if n < 128 then [n]
  else if n < 2048 then
    [192 + n / 64, 128 + n % 64]
  else if n < 65536 then
    [224 + n / 4096, 128 + (n / 64) % 64, 128 + n % 64]
  else
    [240 + n / 262144, 128 + (n / 4096) % 64, 128 + (n / 64) % 64, 128 + n % 64]

/-- Rust str::as_bytes / String::into_bytes. -/
def utf8Bytes (s : String) : List Nat :=
  s.data.foldr (fun c acc => charUtf8 c ++ acc) []

/-! ## Data model (models.rs) -/

/-- models.rs QueryMessage. -/
structure QueryMessage where
  role : String
  content : String
deriving DecidableEq, Repr

/-- models.rs TokenUsage. -/
structure TokenUsage where
  prompt_tokens : Nat
  completion_tokens : Nat
  total_tokens : Nat
deriving DecidableEq, Repr

/-- models.rs QueryChunkType. -/
inductive QueryChunkType where
  | string
  | bytes
  | toolCall
deriving DecidableEq, Repr

/-- The fields of models.rs Query::Prompt that the embedded control flow
reads.  The sampling fields (temperature, top_k, top_p, penalty, seed,
sampling_config, think, stream) only feed the logits processor, which is
abstracted into the sampling oracle below. -/
structure PromptData where
  messages : List QueryMessage
  tools : List String := []
  chunk_size : Option Nat := none
  timestamp : Option Nat := none
  max_tokens : Option Nat := none
  model : Option String := none
deriving DecidableEq, Repr

/-- models.rs Query (chunk data as the byte list of the Rust Vec of u8). -/
inductive Query where
  | Prompt (p : PromptData)
  | Response (error : Option String) (messages : List QueryMessage)
      (tools : List String)
  | Chunk (id : Nat) (data : List Nat) (timestamp : Option Nat)
      (kind : QueryChunkType)
  | End (usage : Option TokenUsage)
  | Exit
  | Status (msg : String)
deriving DecidableEq, Repr

/-- error.rs Error, restricted to the variants the embedded code paths
construct.  Each variant carries the formatted detail string. -/
inductive Error where
  | ioError (msg : String)
  | executionError (msg : String)
  | missingConfigLLM (msg : String)
  | unexpectedMessage
  | messageEncodingError (msg : String)
  | templateError (msg : String)
  | streamError (msg : String)
  | missingActiveRuntime
deriving DecidableEq, Repr

/-- error.rs thiserror display strings (Error::to_string). -/
def Error.toMessage : Error → String
  | .ioError m => m
  | .executionError m => "Error during execution (" ++ m ++ ")"
  | .missingConfigLLM m => "Missing config (" ++ m ++ ")"
  | .unexpectedMessage => "Unexpected Message Variant"
  | .messageEncodingError m => "Error Encoding Message (" ++ m ++ ")"
  | .templateError m => "Error processing template: (" ++ m ++ ")"
  | .streamError m => "Error streaming response: (" ++ m ++ ")"
  | .missingActiveRuntime => "No active runtime present"

end PluginLLM

namespace PluginLLM

/-! ## Model of serde_json

The tool-call code paths hand strings to serde_json::from_str and
serialize tool calls with serde_json::to_vec.  The model below covers the
JSON fragment those paths exercise: null, booleans, numbers (kept as
their source lexeme - their numeric value is never inspected), strings
with the standard escapes, arrays and objects.  from_str demands one
complete value with only whitespace around it, which parseJsonComplete
mirrors. -/

inductive Json where
  | null
  | bool (b : Bool)
  | num (lexeme : String)
  | str (s : String)
  | arr (elems : List Json)
  | obj (members : List (String × Json))

/-- serde_json Value::get on an object (objects insert with overwrite, so
lookup of a duplicated key finds the last occurrence). -/
def Json.get (j : Json) (key : String) : Option Json :=
  match j with
  | .obj members => (members.reverse.find? (fun kv => kv.fst == key)).map Prod.snd
  | _ => none

/-- serde_json Value::as_str. -/
def Json.asStr : Json → Option String
  | .str s => some s
  | _ => none

def isJsonDigit (c : Char) : Bool := '0' ≤ c && c ≤ '9'

/-- Lex a JSON number lexeme (sign, digits, fraction, exponent). -/
def takeNumChars : List Char → List Char × List Char
  | [] => ([], [])
  | c :: cs =>
    if isJsonDigit c || c == '-' || c == '+' || c == '.' || c == 'e' || c == 'E' then
      let (ds, r) := takeNumChars cs
      (c :: ds, r)
    else ([], c :: cs)

/-- Parse the body of a JSON string after the opening quote; returns the
decoded characters and the remainder after the closing quote. -/
def parseJsonStringBody : Nat → List Char → Option (List Char × List Char)
  | 0, _ => none
  | _, [] => none
  | fuel + 1, c :: cs =>
    if c == '"' then some ([], cs)
    else if c == '\\' then
      match cs with
      | [] => none
      | e :: cs2 =>
        let decoded : Option Char :=
          if e == '"' then some '"'
          else if e == '\\' then some '\\'
          else if e == '/' then some '/'
          else if e == 'n' then some '\n'
          else if e == 't' then some '\t'
          else if e == 'r' then some '\r'
          else if e == 'b' then some (Char.ofNat 8)
          else if e == 'f' then some (Char.ofNat 12)
          else none
        match decoded with
        | none => none
        | some d =>
          match parseJsonStringBody fuel cs2 with
          | none => none
          | some (body, rest) => some (d :: body, rest)
    else
      match parseJsonStringBody fuel cs with
      | none => none
      | some (body, rest) => some (c :: body, rest)

mutual

/-- Parse one JSON value from the character list (fuel-structural). -/
def parseJsonVal : Nat → List Char → Option (Json × List Char)
  | 0, _ => none
  | fuel + 1, l =>
    match dropWsLeft l with
    | [] => none
    | c :: cs =>
      if c == 'n' then
        if ['u','l','l'].isPrefixOf cs then some (.null, List.drop 3 cs) else none
      else if c == 't' then
        if ['r','u','e'].isPrefixOf cs then some (.bool true, List.drop 3 cs) else none
      else if c == 'f' then
        if ['a','l','s','e'].isPrefixOf cs then some (.bool false, List.drop 4 cs)
        else none
      else if c == '"' then
        match parseJsonStringBody (cs.length + 1) cs with
        | none => none
        | some (body, rest) => some (.str (String.mk body), rest)
      else if c == '[' then
        match dropWsLeft cs with
        | ']' :: rest => some (.arr [], rest)
        | cs2 =>
          match parseJsonArrElems fuel cs2 with
          | none => none
          | some (elems, rest) => some (.arr elems, rest)
      else if c == '\x7b' then
        match dropWsLeft cs with
        | '\x7d' :: rest => some (.obj [], rest)
        | cs2 =>
          match parseJsonObjMembers fuel cs2 with
          | none => none
          | some (members, rest) => some (.obj members, rest)
      else if isJsonDigit c || c == '-' then
        match takeNumChars (c :: cs) with
        | ([], _) => none
        | (ds, rest) => some (.num (String.mk ds), rest)
      else none

/-- Parse the elements of a non-empty array, consuming the closing bracket. -/
def parseJsonArrElems : Nat → List Char → Option (List Json × List Char)
  | 0, _ => none
  | fuel + 1, l =>
    match parseJsonVal fuel l with
    | none => none
    | some (v, rest) =>
      match dropWsLeft rest with
      | ',' :: rest2 =>
        match parseJsonArrElems fuel rest2 with
        | none => none
        | some (vs, rest3) => some (v :: vs, rest3)
      | ']' :: rest2 => some ([v], rest2)
      | _ => none

/-- Parse the members of a non-empty object, consuming the closing brace. -/
def parseJsonObjMembers : Nat → List Char → Option (List (String × Json) × List Char)
  | 0, _ => none
  | fuel + 1, l =>
    match dropWsLeft l with
    | '"' :: cs =>
      match parseJsonStringBody (cs.length + 1) cs with
      | none => none
      | some (key, rest) =>
        match dropWsLeft rest with
        | ':' :: rest2 =>
          match parseJsonVal fuel rest2 with
          | none => none
          | some (v, rest3) =>
            match dropWsLeft rest3 with
            | ',' :: rest4 =>
              match parseJsonObjMembers fuel rest4 with
              | none => none
              | some (ms, rest5) => some ((String.mk key, v) :: ms, rest5)
            | '\x7d' :: rest4 => some ([(String.mk key, v)], rest4)
            | _ => none
        | _ => none
    | _ => none

end

/-- serde_json::from_str: one complete JSON value, with only whitespace
allowed before and after it. -/
def serdeFromStr (s : String) : Option Json :=
  match parseJsonVal (s.data.length + 1) s.data with
  | none => none
  | some (v, rest) =>
    match dropWsLeft rest with
    | [] => some v
    | _ => none

/-- Escape one character for a JSON string literal (compact serde output). -/
def jsonEscapeChar (c : Char) : List Char :=
  if c == '"' then ['\\', '"']
  else if c == '\\' then ['\\', '\\']
  else if c == '\n' then ['\\', 'n']
  else if c == '\t' then ['\\', 't']
  else if c == '\r' then ['\\', 'r']
  else [c]

def jsonEscape (s : String) : String :=
  String.mk (s.data.foldr (fun c acc => jsonEscapeChar c ++ acc) [])

mutual

/-- serde_json::to_string / to_vec (compact rendering, no spaces). -/
def Json.render : Json → String
  | .null => "null"
  | .bool true => "true"
  | .bool false => "false"
  | .num lexeme => lexeme
  | .str s => "\"" ++ jsonEscape s ++ "\""
  | .arr elems => "[" ++ renderList elems ++ "]"
  | .obj members => "\x7b" ++ renderMembers members ++ "\x7d"

def Json.renderList : List Json → String
  | [] => ""
  | [v] => Json.render v
  | v :: vs => Json.render v ++ "," ++ renderList vs

def Json.renderMembers : List (String × Json) → String
  | [] => ""
  | [(k, v)] => "\"" ++ jsonEscape k ++ "\":" ++ Json.render v
  | (k, v) :: ms => "\"" ++ jsonEscape k ++ "\":" ++ Json.render v ++ "," ++ renderMembers ms

end

/-- models.rs ToolCall. -/
structure ToolCall where
  id : String
  name : String
  arguments : Json

/-- serde serialization of one ToolCall (derived Serialize: fields in
declaration order id, name, arguments). -/
def ToolCall.toJson (tc : ToolCall) : Json :=
  .obj [("id", .str tc.id), ("name", .str tc.name), ("arguments", tc.arguments)]

/-- serde_json::to_vec of a Vec of ToolCall, as bytes. -/
def toolCallsJsonBytes (calls : List ToolCall) : List Nat :=
  utf8Bytes (Json.render (.arr (calls.map ToolCall.toJson)))

end PluginLLM

namespace PluginLLM

/-! ## Tool-call parsing (llm/runtime/tool_call.rs) -/

/-- The body of one iteration of Qwen3ToolCallParser::parse: take the text
of a segment up to the closing tag, trim it, parse it as JSON, and read
the name (a string) and arguments fields.  Any failure skips the segment
(the Rust continue). -/
def qwen3SegmentCall (idx : Nat) (segment : List Char) : Option ToolCall :=
  let json_str := trimChars ((splitOnChars "</tool_call>".data segment).headI)
  match serdeFromStr (String.mk json_str) with
  | none => none
  | some parsed =>
    match (parsed.get "name").bind Json.asStr with
    | none => none
    | some name =>
      match parsed.get "arguments" with
      | none => none
      | some arguments =>
        some { id := "call_" ++ toString idx, name := name, arguments := arguments }

/-- The segments Qwen3ToolCallParser::parse iterates over:
output.split("<tool_call>").skip(1), each paired with its enumerate index. -/
def qwen3Segments (output : String) : List (List Char) :=
  (splitOnChars "<tool_call>".data output.data).drop 1

/-- llm/runtime/tool_call.rs Qwen3ToolCallParser::parse. -/
def qwen3ParseToolCalls (output : String) : Option (List ToolCall) :=
  let calls := (qwen3Segments output).enum.filterMap
    (fun iseg => qwen3SegmentCall iseg.fst iseg.snd)
  if calls.isEmpty then none else some calls

/-! ## Chunking (iter.rs) -/

/-- iter.rs Chunks::next, iterated to exhaustion: groups into windows of
size n; the final window may be partial.  With size 0 the take collects
nothing, so next returns None at once and no chunks are produced.  Fuel
is the list length, keeping the recursion structural. -/
def chunksOfAux (n : Nat) : Nat → List α → List (List α)
  | 0, _ => []
  | _, [] => []
  | fuel + 1, l =>
    if n == 0 then []
    else (l.take n) :: chunksOfAux n fuel (l.drop n)

def chunksOf (n : Nat) (l : List α) : List (List α) :=
  chunksOfAux n l.length l

/-! ## Mock runtime (llm/runtime/mock.rs) -/

/-- Mock::inference message selection: no message yields a placeholder
text, one message yields its content, several yield the first with role
user (case-insensitive) or fail with UnexpectedMessage. -/
def mockSelectBytes (messages : List QueryMessage) : Except Error (List Nat) :=
  match messages with
  | [] => .ok (utf8Bytes "No messages for the Mock runtime have been provided.")
  | [first] => .ok (utf8Bytes first.content)
  | _ =>
    match messages.find? (fun m => eqIgnoreAsciiCase m.role "user") with
    | some m => .ok (utf8Bytes m.content)
    | none => .error .unexpectedMessage

/-- The byte loop of Mock::inference: buffer bytes; each time the buffer
reaches chunk_size send it as a Chunk with the running id and increment
the id; after the loop a non-empty buffer is sent with id + 1 (sic). -/
def mockEmitChunks (chunk_size : Nat) (timestamp : Option Nat) :
    List Nat → List Nat → Nat → List Query
  | [], buffered, id =>
    if buffered.isEmpty then []
    else [Query.Chunk (id + 1) buffered timestamp .string]
  | b :: rest, buffered, id =>
    let buffered2 := buffered ++ [b]
    if buffered2.length == chunk_size then
      Query.Chunk id buffered2 timestamp .string ::
        mockEmitChunks chunk_size timestamp rest [] (id + 1)
    else
      mockEmitChunks chunk_size timestamp rest buffered2 id

/-- serde_json::to_vec(&messages).len(): the byte length of the JSON
serialization of the message list (derived Serialize: role, content). -/
def mockPromptTokens (messages : List QueryMessage) : Nat :=
  (utf8Bytes (Json.render (.arr (messages.map
    (fun m => .obj [("role", .str m.role), ("content", .str m.content)]))))).length

/-- llm/runtime/mock.rs Mock::inference for a Prompt: the chunk stream it
sends on the response channel and its result. -/
def mockInference (p : PromptData) :
    List Query × Except Error (Option TokenUsage) :=
  match mockSelectBytes p.messages with
  | .error e => ([], .error e)
  | .ok bytes =>
    let chunk_size := p.chunk_size.getD 32
    let sent := mockEmitChunks chunk_size p.timestamp bytes [] 0
    (sent, .ok (some
      { prompt_tokens := mockPromptTokens p.messages
        completion_tokens := bytes.length
        total_tokens := mockPromptTokens p.messages + bytes.length }))

end PluginLLM

namespace PluginLLM

/-! ## LocalRuntime (llm/runtime/local.rs) -/

/-- models.rs TokenizerConfig, restricted to the fields init reads. -/
structure TokenizerConfig where
  bos_token : Option String := none
  chat_template : Option String := none
  eos_token : Option String := none
deriving DecidableEq, Repr

/-- config.json eos_token_id: either an integer or an array of integers
(spec section 3).  The embedded init below receives and ignores it, which
is what the source does. -/
inductive EosTokenIdField where
  | single (n : Nat)
  | multiple (ns : List Nat)
deriving DecidableEq, Repr

/-- The artifact contents LocalRuntime::init consumes, in place of the
file paths of LLMRuntimeConfig: the parsed tokenizer_config.json when
that path is set, the text of template_file when set, and the
eos_token_id field of config.json (present iff the artifact carries
one). -/
structure LocalInitInput where
  name : String
  tokenizer_config : Option TokenizerConfig := none
  template_file_content : Option String := none
  model_config_eos_token_id : Option EosTokenIdField := none
deriving Repr

/-- The runtime state init establishes (device, tokenizer and weights are
handled by the oracles). -/
structure LocalState where
  template : Option String
  template_proc : Bool
  eos_tokens : List String
deriving DecidableEq, Repr

/-- local.rs init, EOS block: the EOS token strings are chosen by
substring match on the configured model name; nothing else is consulted. -/
def localEosTokens (name : String) : List String :=
  if containsSubstring name "Llama" then ["<|eot_id|>", "<|end_of_text|>"]
  else if containsSubstring name "Qwen" then ["<|im_end|>"]
  else ["</s>"]

/-- local.rs init, template block: with a tokenizer_config_file the
template is its chat_template field (possibly absent); only without one
is template_file read; otherwise none. -/
def localLoadTemplate (tokenizer_config : Option TokenizerConfig)
    (template_file_content : Option String) : Option String :=
  match tokenizer_config with
  | some tc => tc.chat_template
  | none => template_file_content

/-- local.rs LocalRuntime::init: the state it stores (weights and
tokenizer loading are oracle territory; their failure aborts activation
and no claim depends on them). -/
def localInit (inp : LocalInitInput) : LocalState :=
  let template := localLoadTemplate inp.tokenizer_config inp.template_file_content
  { template := template
    template_proc := inp.tokenizer_config.isSome && template.isSome
    eos_tokens := localEosTokens inp.name }

/-- Oracle bundle for one LocalRuntime::inference call: tokenizer
encode/decode, the template engine, and the model forward passes plus
sampling collapsed into token producers.  decode errors are not modelled
(no claim exercises them); encode, render and the samplers can fail. -/
structure LocalOracle where
  encode : String → Option (List Nat)
  decode : List Nat → String
  renderTemplate : String → PromptData → Option String
  prefill : List Nat → Option Nat
  next : List Nat → List Nat → Option Nat
  vocab : List (String × Nat)

/-- local.rs inference, message preprocessing: template plus processor
render the serialized query; a template without processor is an
execution error; no template falls back to joined role: content lines. -/
def localProcessedMessage (st : LocalState) (o : LocalOracle) (p : PromptData) :
    Except Error String :=
  match st.template with
  | some t =>
    if st.template_proc then
      match o.renderTemplate t p with
      | some rendered => .ok rendered
      | none => .error (.templateError "render failed")
    else
      .error (.executionError "Template processor is not initialized")
  | none =>
    .ok (String.intercalate "\n"
      (p.messages.map (fun m => m.role ++ ": " ++ m.content)))

/-- local.rs inference, the from_fn token iterator: up to remaining
samples; a produced token is pushed and yielded, and ends the stream when
it is an EOS id; a sampling failure ends the stream and flags the error.
Returns the yielded loop tokens and whether sample_error was set. -/
def localGenLoop (o : LocalOracle) (promptToks : List Nat) (eosIds : List Nat) :
    Nat → List Nat → List Nat × Bool
  | 0, _ => ([], false)
  | remaining + 1, allTokens =>
    match o.next promptToks allTokens with
    | none => ([], true)
    | some t =>
      if eosIds.contains t then ([t], false)
      else
        let (rest, err) := localGenLoop o promptToks eosIds remaining (allTokens ++ [t])
        (t :: rest, err)

/-- local.rs inference, EOS id resolution: each configured EOS token
string looked up in the tokenizer vocabulary. -/
def localResolvedEosIds (eos_tokens : List String) (vocab : List (String × Nat)) :
    List Nat :=
  eos_tokens.filterMap (fun e => vocab.lookup e)

/-- The full generated token sequence of one prompt: the token sampled
from prefill followed by the loop tokens (local.rs all_tokens). -/
def localGeneratedTokens (o : LocalOracle) (t0 : Nat) (promptToks : List Nat)
    (max_tokens : Nat) (eosIds : List Nat) : List Nat :=
  t0 :: (localGenLoop o promptToks eosIds max_tokens [t0]).fst

/-- The observable outcome of one LocalRuntime::inference call: the
messages sent on the response channel, the generated token sequence
(all_tokens), and the returned value. -/
structure LocalRunResult where
  sent : List Query
  generated : List Nat
  result : Except Error (Option TokenUsage)

/-- llm/runtime/local.rs LocalRuntime::inference for a Prompt: render the
template, encode, prefill and sample a first token, run the sampling
loop, decode windows of chunk_size tokens into enumerated String chunks,
and report usage (the End is appended by execute, not here). -/
def localRun (st : LocalState) (o : LocalOracle) (p : PromptData) :
    LocalRunResult :=
  let chunk_size := p.chunk_size.getD 32
  match localProcessedMessage st o p with
  | .error e => { sent := [], generated := [], result := .error e }
  | .ok processed =>
    let max_tokens := p.max_tokens.getD 500
    match o.encode processed with
    | none =>
      { sent := [], generated := [],
        result := .error (.messageEncodingError "encode failed") }
    | some tokens =>
      match o.prefill tokens with
      | none =>
        { sent := [], generated := [],
          result := .error (.executionError "sample failed") }
      | some t0 =>
        let eosIds := localResolvedEosIds st.eos_tokens o.vocab
        let (loopToks, sampleErr) := localGenLoop o tokens eosIds max_tokens [t0]
        let stream := t0 :: loopToks
        let sent := (chunksOf chunk_size stream).enum.map
          (fun ichunk => Query.Chunk ichunk.fst (utf8Bytes (o.decode ichunk.snd))
            p.timestamp .string)
        if sampleErr then
          { sent := sent, generated := stream,
            result := .error (.executionError "sample failed") }
        else
          { sent := sent, generated := stream,
            result := .ok (some
              { prompt_tokens := tokens.length
                completion_tokens := stream.length
                total_tokens := tokens.length + stream.length }) }

/-- The channel/result view of localRun. -/
def localInference (st : LocalState) (o : LocalOracle) (p : PromptData) :
    List Query × Except Error (Option TokenUsage) :=
  ((localRun st o p).sent, (localRun st o p).result)

end PluginLLM

namespace PluginLLM

/-! ## KV cache state (local.rs ModelWeights, llm/backend/qwen3.rs)

The cache is modelled as the list of token positions the model has
absorbed: a forward pass appends its input, and an empty list is an empty
cache.  Llama's clear_kv_cache recreates the candle cache; for the Qwen3
variant of ModelWeights the body is empty (the candle clear_kv_cache is
private), so the state is returned unchanged. -/

inductive ModelWeights where
  | llama (cache : List Nat)
  | qwen3 (cache : List Nat)
deriving DecidableEq, Repr

def ModelWeights.cache : ModelWeights → List Nat
  | .llama c => c
  | .qwen3 c => c

/-- local.rs ModelWeights::clear_kv_cache. -/
def ModelWeights.clear_kv_cache : ModelWeights → ModelWeights
  | .llama _ => .llama []
  | .qwen3 c => .qwen3 c

/-- The cache effect of ModelWeights::forward on some input tokens. -/
def ModelWeights.forwardTokens : ModelWeights → List Nat → ModelWeights
  | .llama c, input => .llama (c ++ input)
  | .qwen3 c, input => .qwen3 (c ++ input)

/-- The cache trajectory of one prompt in local.rs inference: the
clear_kv_cache call, the prefill forward over the whole prompt, then one
forward per generated token. -/
def runPromptCache (w : ModelWeights) (promptToks genToks : List Nat) :
    ModelWeights :=
  genToks.foldl (fun wa t => wa.forwardTokens [t])
    ((w.clear_kv_cache).forwardTokens promptToks)

/-- The cache a prompt sees at its prefill forward pass (right after the
clear_kv_cache call that opens inference). -/
def prefillStartCache (w : ModelWeights) : List Nat :=
  (w.clear_kv_cache).cache

/-- llm/backend/qwen3.rs Qwen3Backend::clear_kv_cache delegates to the
candle model's clear_kv_cache, which empties the cache. -/
def qwen3BackendClearKvCache (_cache : List Nat) : List Nat := []

/-! ## Worker loop (llm/runtime.rs LLMRuntime::run_stream) -/

/-- The model a worker drives, as observed through the LLMRuntimeModel
trait: the result of init, and per query the messages execute sends on
the response channel plus its result.  create_model itself cannot fail
(both arms return Ok). -/
structure WorkerModel where
  initResult : Except Error Unit
  execute : PromptData → List Query × Except Error Unit

/-- The worker closure spawned by run_stream, run over the sequence of
messages received on the control channel (hasModel is whether
current_model is already Some).  On the first Prompt the model is
created and initialized; an init failure emits Status and breaks.
execute failure emits Status and breaks.  Exit breaks.  Other queries
are discarded.  The returned list is everything sent on the response
channel. -/
def workerLoop (m : WorkerModel) : List Query → Bool → List Query
  | [], _ => []
  | msg :: rest, hasModel =>
    match msg with
    | Query.Prompt p =>
      if hasModel then
        match m.execute p with
        | (sent, .ok _) => sent ++ workerLoop m rest true
        | (sent, .error e) => sent ++ [Query.Status e.toMessage]
      else
        match m.initResult with
        | .error e => [Query.Status e.toMessage]
        | .ok _ =>
          match m.execute p with
          | (sent, .ok _) => sent ++ workerLoop m rest true
          | (sent, .error e) => sent ++ [Query.Status e.toMessage]
    | Query.Exit => []
    | _ => workerLoop m rest hasModel

/-! ## Service (llm.rs LLMService) -/

/-- models.rs LLMRuntimeConfig (paths as strings). -/
structure LLMRuntimeConfig where
  name : String
  tokenizer_file : Option String := none
  tokenizer_config_file : Option String := none
  model_config_file : Option String := none
  model_index_file : Option String := none
  model_file : Option String := none
  model_dir : Option String := none
  template_file : Option String := none
deriving DecidableEq, Repr

/-- llm.rs LLMService, with runtimes as handles: active holds the handle
of the running runtime and exited records every runtime that was sent
Exit by shutdown (in order).  nextId freshly numbers created runtimes. -/
structure LLMServiceState where
  configs : Option (List (String × LLMRuntimeConfig))
  active : Option Nat
  exited : List Nat
  nextId : Nat
deriving DecidableEq, Repr

/-- llm.rs shutdown_active: take the active runtime, if any, and shut it
down (Exit is sent to it). -/
def shutdownActive (s : LLMServiceState) : LLMServiceState :=
  match s.active with
  | some rt => { s with active := none, exited := s.exited ++ [rt] }
  | none => s

/-- HashMap::get on the registry. -/
def lookupConfig (s : LLMServiceState) (id : String) : Option LLMRuntimeConfig :=
  s.configs.bind (fun cs => (cs.find? (fun kv => kv.fst == id)).map Prod.snd)

/-- llm.rs LLMService::activate: shut down the active runtime first, then
look the config up; a missing config is an error (and the active slot
stays empty).  Runtime construction and run_stream on a fresh runtime
cannot fail, so the success path stores the new handle. -/
def LLMService.activate (s : LLMServiceState) (id : String) :
    LLMServiceState × Except Error Nat :=
  let s1 := shutdownActive s
  match lookupConfig s1 id with
  | none =>
    (s1, .error (.missingConfigLLM ("No configuration found for model: " ++ id)))
  | some _ =>
    ({ s1 with active := some s1.nextId, nextId := s1.nextId + 1 }, .ok s1.nextId)

end PluginLLM

namespace PluginLLM

/-! ## Hub-cache resolution (models.rs from_hf_local_cache) -/

/-- The file-system and hf_hub collaborators of from_hf_local_cache: the
per-file cache probe (cache_repo.get), fs::canonicalize (None is an io
error), and Path::parent. -/
structure HubOracle where
  get : String → Option String
  canonicalize : String → Option String
  parent : String → Option String

/-- models.rs ensure_within_cache: canonicalize the path and the cache
root and require the former to start with the latter. -/
def ensure_within_cache (o : HubOracle) (path cache_dir : String) :
    Except Error Unit :=
  match o.canonicalize path with
  | none => .error (.ioError "canonicalize failed")
  | some canonical =>
    match o.canonicalize cache_dir with
    | none => .error (.ioError "canonicalize failed")
    | some root =>
      if root.data.isPrefixOf canonical.data then .ok ()
      else .error (.missingConfigLLM
        ("Resolved path " ++ canonical ++ " escapes the cache directory " ++ root))

def validSegmentChar (c : Char) : Bool :=
  c.isAlphanum || c == '-' || c == '_' || c == '.'

/-- models.rs is_valid_segment. -/
def isValidSegment (s : String) : Bool :=
  !s.isEmpty && s.data.all validSegmentChar && !(containsSubstring s "..")

/-- models.rs validate_model_name: exactly two non-empty segments of
alphanumerics plus dash, underscore and dot, neither containing "..".
(The source runs the same segment predicate twice, once over the split
vector and once over split_once; with exactly two parts both run over the
same segments, so one pass is embedded.) -/
def validate_model_name (name : String) : Except Error Unit :=
  let parts := splitOnChars ['/'] name.data
  if parts.length != 2 then
    .error (.missingConfigLLM
      ("Model name must be in org/model format, got: " ++ name))
  else
    let seg1 := String.mk parts.headI
    let seg2 := String.mk (parts.drop 1).headI
    if !(isValidSegment seg1) || !(isValidSegment seg2) then
      .error (.missingConfigLLM "Model name contains invalid characters.")
    else
      .ok ()

/-- The for loop over the five resolved files: every present path must
pass ensure_within_cache. -/
def ensureAllWithin (o : HubOracle) (cache_dir : String) :
    List (Option String) → Except Error Unit
  | [] => .ok ()
  | none :: rest => ensureAllWithin o cache_dir rest
  | some p :: rest =>
    match ensure_within_cache o p cache_dir with
    | .error e => .error e
    | .ok _ => ensureAllWithin o cache_dir rest

/-- models.rs from_hf_local_cache (the cfg-test Mock shortcut is compiled
out of release builds and not modelled): validate the name, probe the
five artifacts, check every resolved path against the cache root, derive
model_dir from the index file when no single model file exists (and check
it too), and require a tokenizer plus weights. -/
def from_hf_local_cache (o : HubOracle) (model cache_dir : String) :
    Except Error LLMRuntimeConfig :=
  match validate_model_name model with
  | .error e => .error e
  | .ok _ =>
    let tokenizer_file := o.get "tokenizer.json"
    let tokenizer_config_file := o.get "tokenizer_config.json"
    let model_config_file := o.get "config.json"
    let model_index_file := o.get "model.safetensors.index.json"
    let model_file := o.get "model.safetensors"
    match ensureAllWithin o cache_dir
      [tokenizer_file, tokenizer_config_file, model_config_file,
        model_index_file, model_file] with
    | .error e => .error e
    | .ok _ =>
      let model_dir :=
        if model_file.isNone then model_index_file.bind o.parent else none
      match
        (match model_dir with
          | some d => ensure_within_cache o d cache_dir
          | none => .ok ()) with
      | .error e => .error e
      | .ok _ =>
        if tokenizer_file.isNone || (model_file.isNone && model_dir.isNone) then
          .error (.missingConfigLLM "Required model files not found in local cache")
        else
          .ok { name := model
                tokenizer_file := tokenizer_file
                tokenizer_config_file := tokenizer_config_file
                model_config_file := model_config_file
                model_index_file := model_index_file
                model_file := model_file
                model_dir := model_dir
                template_file := none }

/-- The six path fields of a resolved configuration. -/
def configPaths (cfg : LLMRuntimeConfig) : List (Option String) :=
  [cfg.tokenizer_file, cfg.tokenizer_config_file, cfg.model_config_file,
    cfg.model_index_file, cfg.model_file, cfg.model_dir]

/-- A path canonicalizes under the canonicalized cache root. -/
def withinCache (o : HubOracle) (cache_dir p : String) : Prop :=
  ∃ c root, o.canonicalize p = some c ∧ o.canonicalize cache_dir = some root ∧
    root.data.isPrefixOf c.data = true

/-! ## Spec-modelled definitions

Two pieces of behaviour the spec describes have no implementation under
src; they are modelled from the spec text and used only to compare the
spec against the code (C4) or to complete a pipeline whose other parts
are in src (C3). -/

/-- Modelled from the spec: EOS resolution as section 4.5 step 2 words
it — read eos_token_id from config.json, an integer or a list, and only
when that field is absent fall back to looking the tokenizer-config
eos_token string up in the vocabulary.  No code under src reads
eos_token_id; this definition exists to compare the spec against
localInit/localResolvedEosIds. -/
def specResolveEosIds (eos_token_id : Option EosTokenIdField)
    (tokenizer_eos_token : Option String) (vocab : List (String × Nat)) :
    List Nat :=
  match eos_token_id with
  | some (.single n) => [n]
  | some (.multiple ns) => ns
  | none =>
    match tokenizer_eos_token with
    | some s => (vocab.lookup s).toList
    | none => []

/-- Modelled from the spec: the tool-call post-pass of section 4.5 step 8,
which is missing from the generation loop under src (the ToolCallParser
trait, its family impls and a consuming test exist, but the loop never
invokes them): with a parser whose parse of the full decoded output is a
non-empty list, one final chunk with the next id, kind ToolCall and the
JSON bytes of the list. -/
def toolCallPostPass (parse : Option (String → Option (List ToolCall)))
    (fullText : String) (nextChunkId : Nat) (timestamp : Option Nat) :
    List Query :=
  match parse with
  | none => []
  | some f =>
    match f fullText with
    | none => []
    | some calls =>
      if calls.isEmpty then []
      else [Query.Chunk nextChunkId (toolCallsJsonBytes calls) timestamp .toolCall]

/-- Modelled from the spec: execute for the local runtime with the
post-pass in place — run inference, decode all generated tokens into one
string, append the post-pass chunk, then the terminal End (on inference
failure nothing further is emitted). -/
def localExecuteWithToolCalls (st : LocalState) (o : LocalOracle)
    (parse : Option (String → Option (List ToolCall))) (p : PromptData) :
    List Query × Except Error Unit :=
  let r := localRun st o p
  match r.result with
  | .error e => (r.sent, .error e)
  | .ok usage =>
    (r.sent ++
      toolCallPostPass parse (o.decode r.generated) r.sent.length p.timestamp ++
      [Query.End usage], .ok ())

end PluginLLM

namespace PluginLLM

/-! ## Claims -/

/-- C2: for every Prompt accepted by Mock or LocalRuntime and completed
without error, the Chunk ids are 0, 1, 2, ... consecutively, the first
chunk having id 0 even when the whole output fits in one partial chunk.
The Mock violates this: a single-message prompt with content Hello and
chunk_size 10 produces exactly one chunk, and its id is 1, because the
final partial buffer is sent with id + 1 instead of id. -/
theorem mock_single_partial_chunk_has_id_one :
    (mockInference { messages := [⟨"user", "Hello"⟩], chunk_size := some 10 }).fst =
      [Query.Chunk 1 (utf8Bytes "Hello") none .string] ∧
    (mockInference { messages := [⟨"user", "Hello"⟩], chunk_size := some 10 }).fst ≠
      [Query.Chunk 0 (utf8Bytes "Hello") none .string] := by
  constructor
  · rfl
  · decide

/-- C5 counterexample: the Qwen3 variant of ModelWeights has a no-op
clear_kv_cache, so after a first prompt (prompt tokens [1, 2], one
generated token 3) the second prompt's prefill starts with the previous
prompt's cache [1, 2, 3] rather than an empty one. -/
theorem qwen3_second_prompt_prefill_cache_nonempty :
    prefillStartCache (runPromptCache (ModelWeights.qwen3 []) [1, 2] [3]) =
      [1, 2, 3] ∧
    prefillStartCache (runPromptCache (ModelWeights.qwen3 []) [1, 2] [3]) ≠ [] := by
  decide

/-- C5 amended: clear_kv_cache resets the generation state for the Llama
variant of ModelWeights (the cache is recreated empty, so every prompt's
prefill starts with an empty cache) and for Qwen3Backend in the backend
module; the Qwen3 variant of ModelWeights leaves its cache untouched. -/
theorem clear_kv_cache_per_family :
    (∀ c, (ModelWeights.llama c).clear_kv_cache = .llama []) ∧
    (∀ c, (ModelWeights.qwen3 c).clear_kv_cache = .qwen3 c) ∧
    (∀ c, qwen3BackendClearKvCache c = []) ∧
    (∀ promptToks genToks w,
      prefillStartCache (runPromptCache (ModelWeights.llama w) promptToks genToks) = []) := by
  refine ⟨fun c => rfl, fun c => rfl, fun c => rfl, fun promptToks genToks w => ?_⟩
  have hcache : ∀ (ws : ModelWeights) (l : List Nat),
      (genToks.foldl (fun wa t => wa.forwardTokens [t]) (ModelWeights.llama l)).clear_kv_cache =
        ModelWeights.llama [] := by
    intro ws l
    induction genToks generalizing l with
    | nil => rfl
    | cons t ts ih => exact ih (l ++ [t])
  simpa [prefillStartCache, runPromptCache, ModelWeights.clear_kv_cache,
    ModelWeights.forwardTokens, ModelWeights.cache] using
      congrArg ModelWeights.cache (hcache (ModelWeights.llama w) promptToks)

/-- C7 counterexample: with a tokenizer_config_file present whose parsed
content has no chat_template and a template_file whose content is TPL,
init loads no template at all; the claim predicts the template TPL. -/
theorem template_file_ignored_when_tokenizer_config_present :
    localLoadTemplate (some { chat_template := none }) (some "TPL") = none ∧
    localLoadTemplate (some { chat_template := none }) (some "TPL") ≠ some "TPL" := by
  decide

/-- C7 amended: with a tokenizer_config_file the template is exactly its
chat_template field (template_file is ignored, even when chat_template is
absent); without one the template is the template_file content when set;
otherwise none; and whenever no template is loaded, generation falls back
to joining the messages as role: content lines. -/
theorem template_preference_order (tc : TokenizerConfig) (tf : Option String)
    (st : LocalState) (o : LocalOracle) (p : PromptData)
    (hnone : st.template = none) :
    localLoadTemplate (some tc) tf = tc.chat_template ∧
    localLoadTemplate none tf = tf ∧
    localProcessedMessage st o p =
      .ok (String.intercalate "\n"
        (p.messages.map (fun m => m.role ++ ": " ++ m.content))) := by
  refine ⟨rfl, rfl, ?_⟩
  simp [localProcessedMessage, hnone]

/-- C7 witness for template_preference_order at a concrete state. -/
theorem template_preference_order_witness :
    localLoadTemplate (some { chat_template := none }) (some "T") = none ∧
    localLoadTemplate none (some "T") = some "T" ∧
    localProcessedMessage { template := none, template_proc := false, eos_tokens := [] }
      { encode := fun _ => some [], decode := fun _ => "", renderTemplate := fun _ _ => some "",
        prefill := fun _ => some 0, next := fun _ _ => some 0, vocab := [] }
      { messages := [⟨"user", "Hi"⟩] } = .ok "user: Hi" := by
  have h := template_preference_order { chat_template := none } (some "T")
    { template := none, template_proc := false, eos_tokens := [] }
    { encode := fun _ => some [], decode := fun _ => "", renderTemplate := fun _ _ => some "",
      prefill := fun _ => some 0, next := fun _ _ => some 0, vocab := [] }
    { messages := [⟨"user", "Hi"⟩] } rfl
  exact ⟨h.1, h.2.1, h.2.2⟩

/-- C10: activating an id with no registered configuration fails with a
missing-config error, and because the previously active runtime is shut
down (sent Exit and removed) before the lookup, the service ends with no
active runtime: a failed activation is not atomic for the active slot. -/
theorem activate_missing_config_clears_active (s : LLMServiceState) (id : String)
    (rt : Nat) (hactive : s.active = some rt)
    (hmissing : lookupConfig s id = none) :
    (LLMService.activate s id).snd =
      .error (.missingConfigLLM ("No configuration found for model: " ++ id)) ∧
    (LLMService.activate s id).fst.active = none ∧
    (LLMService.activate s id).fst.exited = s.exited ++ [rt] := by
  have hlookup : lookupConfig
      { configs := s.configs, active := none, exited := s.exited ++ [rt],
        nextId := s.nextId } id = none := by
    simpa [lookupConfig] using hmissing
  refine ⟨?_, ?_, ?_⟩ <;>
    simp [LLMService.activate, shutdownActive, hactive, hlookup]

/-- C10 witness for activate_missing_config_clears_active at a service
with one active runtime and an empty registry. -/
theorem activate_missing_config_clears_active_witness :
    (LLMService.activate
      { configs := some [], active := some 7, exited := [], nextId := 8 } "X").snd =
      .error (.missingConfigLLM "No configuration found for model: X") ∧
    (LLMService.activate
      { configs := some [], active := some 7, exited := [], nextId := 8 } "X").fst.active =
      none ∧
    (LLMService.activate
      { configs := some [], active := some 7, exited := [], nextId := 8 } "X").fst.exited =
      [7] := by
  have h := activate_missing_config_clears_active
    { configs := some [], active := some 7, exited := [], nextId := 8 } "X" 7 rfl rfl
  exact ⟨h.1, h.2.1, h.2.2⟩

end PluginLLM

namespace PluginLLM

/-- A worker model whose execute fails on the prompt tagged with
timestamp 1 and streams a chunk and End for every other prompt. -/
def failFirstModel : WorkerModel :=
  { initResult := .ok ()
    execute := fun p =>
      if p.timestamp == some 1 then ([], .error (.executionError "boom"))
      else ([Query.Chunk 0 [] none .string, Query.End none], .ok ()) }

/-- C1 counterexample: with the backend created and initialized (init
succeeds), a prompt whose generation fails is followed by exactly one
Status — and the worker then terminates, so the second prompt waiting on
the control inbox is never processed: its chunks and End never appear on
the outbox, against the claim that only initialization errors terminate
the worker. -/
theorem worker_stops_after_generation_failure :
    workerLoop failFirstModel
      [Query.Prompt { messages := [], timestamp := some 1 },
        Query.Prompt { messages := [] }] false =
      [Query.Status "Error during execution (boom)"] ∧
    Query.End none ∉ workerLoop failFirstModel
      [Query.Prompt { messages := [], timestamp := some 1 },
        Query.Prompt { messages := [] }] false := by
  decide

/-- C1 amended: for every Prompt whose execute fails — whether it is the
first prompt (backend freshly initialized) or a later one — the worker
sends the messages execute already emitted followed by exactly one
Status with the error text, and then terminates: whatever else sits in
the control inbox is never processed. -/
theorem worker_generation_failure_emits_status_and_terminates
    (m : WorkerModel) (p : PromptData) (rest : List Query) (sent : List Query)
    (e : Error) (hexec : m.execute p = (sent, .error e)) :
    workerLoop m (Query.Prompt p :: rest) true = sent ++ [Query.Status e.toMessage] ∧
    (m.initResult = .ok () →
      workerLoop m (Query.Prompt p :: rest) false =
        sent ++ [Query.Status e.toMessage]) := by
  constructor
  · simp [workerLoop, hexec]
  · intro hinit
    simp [workerLoop, hinit, hexec]

/-- C1 witness for worker_generation_failure_emits_status_and_terminates
at the concrete failing model. -/
theorem worker_generation_failure_witness :
    workerLoop failFirstModel
      [Query.Prompt { messages := [], timestamp := some 1 }] true =
      [Query.Status "Error during execution (boom)"] ∧
    workerLoop failFirstModel
      [Query.Prompt { messages := [], timestamp := some 1 }] false =
      [Query.Status "Error during execution (boom)"] := by
  have h := worker_generation_failure_emits_status_and_terminates failFirstModel
    { messages := [], timestamp := some 1 } [] [] (.executionError "boom") rfl
  exact ⟨h.1, h.2 rfl⟩

end PluginLLM
namespace PluginLLM

/-- The vocabulary used by the C4 comparison: the Llama EOS strings map
to ids 7 and 9 and the s tag to 3. -/
def c4Vocab : List (String × Nat) :=
  [("<|eot_id|>", 7), ("<|end_of_text|>", 9), ("</s>", 3)]

/-- C4 counterexample: a Llama-named runtime whose config.json carries
eos_token_id 5 still resolves its EOS ids by looking the hardcoded Llama
token strings up in the vocabulary, yielding [7, 9]; the spec-modelled
resolution reads the config field and yields [5]. -/
theorem eos_resolution_ignores_model_config :
    localResolvedEosIds
        (localInit ⟨"Llama-3.2", some ⟨none, none, some "</s>"⟩, none,
          some (.single 5)⟩).eos_tokens c4Vocab = [7, 9] ∧
    specResolveEosIds (some (.single 5)) (some "</s>") c4Vocab = [5] ∧
    ([7, 9] : List Nat) ≠ [5] := by
  refine ⟨by rfl, rfl, by decide⟩

/-- C4 amended: the EOS ids are resolved by selecting hardcoded per-family
token strings by substring match on the configured name — Llama names get
eot_id and end_of_text, Qwen names get im_end, all others get the s tag —
and looking each up in the tokenizer vocabulary at inference time; the
model-config eos_token_id and the tokenizer-config eos_token are never
consulted, so the resolution is invariant under them. -/
theorem eos_resolution_by_name (name : String) (tc1 tc2 : Option TokenizerConfig)
    (tf1 tf2 : Option String) (e1 e2 : Option EosTokenIdField)
    (vocab : List (String × Nat)) :
    localResolvedEosIds (localInit ⟨name, tc1, tf1, e1⟩).eos_tokens vocab =
      localResolvedEosIds (localInit ⟨name, tc2, tf2, e2⟩).eos_tokens vocab ∧
    (containsSubstring name "Llama" = true →
      (localInit ⟨name, tc1, tf1, e1⟩).eos_tokens = ["<|eot_id|>", "<|end_of_text|>"]) ∧
    (containsSubstring name "Llama" = false → containsSubstring name "Qwen" = true →
      (localInit ⟨name, tc1, tf1, e1⟩).eos_tokens = ["<|im_end|>"]) ∧
    (containsSubstring name "Llama" = false → containsSubstring name "Qwen" = false →
      (localInit ⟨name, tc1, tf1, e1⟩).eos_tokens = ["</s>"]) := by
  refine ⟨rfl, ?_, ?_, ?_⟩
  · intro h
    simp [localInit, localEosTokens, h]
  · intro h1 h2
    simp [localInit, localEosTokens, h1, h2]
  · intro h1 h2
    simp [localInit, localEosTokens, h1, h2]

/-- C4 witness for eos_resolution_by_name at a Qwen-named runtime. -/
theorem eos_resolution_by_name_witness :
    (localInit ⟨"Qwen3-4B", none, none, some (.single 5)⟩).eos_tokens =
      ["<|im_end|>"] := by
  exact (eos_resolution_by_name "Qwen3-4B" none none none none
    (some (.single 5)) none []).2.2.1 (by decide) (by decide)

end PluginLLM

namespace PluginLLM

/-- Any call produced from segment index i carries id call_i. -/
theorem qwen3SegmentCall_id (i : Nat) (seg : List Char) (call : ToolCall)
    (h : qwen3SegmentCall i seg = some call) :
    call.id = "call_" ++ toString i := by
  simp only [qwen3SegmentCall] at h
  split at h
  · exact absurd h (by simp)
  · split at h
    · exact absurd h (by simp)
    · split at h
      · exact absurd h (by simp)
      · have hcall := Option.some.inj h
        subst hcall
        rfl

/-- When every enumerated segment from position k onward yields a call,
filterMap drops nothing and the ids are call_k, call_{k+1}, .... -/
theorem qwen3_ids_consecutive_from (l : List (List Char)) :
    ∀ (k : Nat),
      (∀ p ∈ List.enumFrom k l, (qwen3SegmentCall p.fst p.snd).isSome) →
      ((List.enumFrom k l).filterMap
          (fun p => qwen3SegmentCall p.fst p.snd)).map ToolCall.id =
        (List.range' k l.length).map (fun i => "call_" ++ toString i) := by
  induction l with
  | nil => intro k _; rfl
  | cons seg segs ih =>
    intro k hall
    have hhead : (qwen3SegmentCall k seg).isSome := by
      exact hall (k, seg) (by simp [List.enumFrom])
    obtain ⟨call, hcall⟩ := Option.isSome_iff_exists.mp hhead
    have htail := ih (k + 1) (fun p hp => hall p (by simp [List.enumFrom, hp]))
    simp only [List.enumFrom, List.filterMap_cons, hcall, List.range',
      List.map_cons, List.length_cons]
    exact congrArg₂ List.cons (qwen3SegmentCall_id k seg call hcall) htail

/-- C8 amended: whenever the Qwen3 tool-call parse returns Some list, each
call id is call_{j} for the 0-based index j of the originating tool_call
segment, so malformed or incomplete segments leave gaps in the id
sequence; when every segment parses and carries name and arguments, the
ids are exactly call_0 .. call_{n-1} consecutively. -/
theorem qwen3_toolcall_ids (output : String) (calls : List ToolCall)
    (h : qwen3ParseToolCalls output = some calls)
    (hall : ∀ p ∈ (qwen3Segments output).enum,
      (qwen3SegmentCall p.fst p.snd).isSome) :
    calls.map ToolCall.id =
      (List.range (qwen3Segments output).length).map
        (fun i => "call_" ++ toString i) := by
  have hcalls : calls = (qwen3Segments output).enum.filterMap
      (fun p => qwen3SegmentCall p.fst p.snd) := by
    simp only [qwen3ParseToolCalls] at h
    split at h
    · exact absurd h (by simp)
    · exact (Option.some.inj h).symm
  have hfrom := qwen3_ids_consecutive_from (qwen3Segments output) 0
    (by simpa [List.enum] using hall)
  rw [hcalls]
  simpa [List.enum, List.range_eq_range'] using hfrom

/-- Input whose first tool_call segment holds malformed JSON. -/
def qwen3GapInput : String :=
  "<tool_call>bad</tool_call><tool_call>\x7b\"name\":\"f\",\"arguments\":\x7b\x7d\x7d</tool_call>"

/-- Input with two well-formed tool_call segments. -/
def qwen3GoodInput : String :=
  "<tool_call>\x7b\"name\":\"f\",\"arguments\":\x7b\x7d\x7d</tool_call><tool_call>\x7b\"name\":\"g\",\"arguments\":1\x7d</tool_call>"

/-- C8 counterexample: on an input whose first segment is malformed and
whose second parses, the single returned call has id call_1, not the
call_0 the claim requires for a one-element result. -/
theorem qwen3_toolcall_id_gap :
    (qwen3ParseToolCalls qwen3GapInput).map (List.map ToolCall.id) =
      some ["call_1"] ∧
    (some ["call_1"] : Option (List String)) ≠ some ["call_0"] := by
  exact ⟨rfl, by decide⟩

/-- C8 witness for qwen3_toolcall_ids on an input where every segment
parses: the ids come out consecutive from call_0. -/
theorem qwen3_toolcall_ids_witness :
    ((qwen3Segments qwen3GoodInput).enum.filterMap
        (fun p => qwen3SegmentCall p.fst p.snd)).map ToolCall.id =
      ["call_0", "call_1"] := by
  have h : qwen3ParseToolCalls qwen3GoodInput =
      some ((qwen3Segments qwen3GoodInput).enum.filterMap
        (fun p => qwen3SegmentCall p.fst p.snd)) := rfl
  have hids := qwen3_toolcall_ids qwen3GoodInput _ h (by decide)
  exact hids.trans (by decide)

end PluginLLM

namespace PluginLLM

/-- A path that canonicalizes to a location outside the canonicalized
cache root. -/
def outsideCache (o : HubOracle) (cache_dir p : String) : Prop :=
  ∃ c root, o.canonicalize p = some c ∧ o.canonicalize cache_dir = some root ∧
    root.data.isPrefixOf c.data = false

/-- The paths from_hf_local_cache resolves: the five probed artifacts and
the model directory derived from the index file when no single-file model
exists. -/
def resolvedHubPaths (o : HubOracle) : List (Option String) :=
  [o.get "tokenizer.json", o.get "tokenizer_config.json", o.get "config.json",
    o.get "model.safetensors.index.json", o.get "model.safetensors",
    if (o.get "model.safetensors").isNone then
      (o.get "model.safetensors.index.json").bind o.parent
    else none]

theorem ensure_within_cache_ok (o : HubOracle) (p d : String)
    (h : ensure_within_cache o p d = .ok ()) : withinCache o d p := by
  simp only [ensure_within_cache] at h
  cases hc : o.canonicalize p with
  | none => simp only [hc] at h; exact absurd h (by simp)
  | some c =>
    simp only [hc] at h
    cases hroot : o.canonicalize d with
    | none => simp only [hroot] at h; exact absurd h (by simp)
    | some root =>
      simp only [hroot] at h
      by_cases hpre : root.data.isPrefixOf c.data = true
      · exact ⟨c, root, hc, hroot, hpre⟩
      · simp [hpre] at h

theorem ensureAllWithin_ok (o : HubOracle) (d : String) :
    ∀ l, ensureAllWithin o d l = .ok () →
      ∀ p, some p ∈ l → withinCache o d p := by
  intro l
  induction l with
  | nil => intro _ p hp; simp at hp
  | cons head rest ih =>
    intro h p hp
    match head, hp with
    | _, List.Mem.head _ =>
      simp only [ensureAllWithin] at h
      split at h
      · exact absurd h (by simp)
      · next _ heq => exact ensure_within_cache_ok o p d heq
    | none, List.Mem.tail _ hmem =>
      exact ih h p hmem
    | some q, List.Mem.tail _ hmem =>
      simp only [ensureAllWithin] at h
      split at h
      · exact absurd h (by simp)
      · exact ih h p hmem

/-- Inversion of the success path of from_hf_local_cache: all five probed
artifacts passed the cache check, the derived model directory (when
computed) passed it too, and the returned configuration holds exactly the
resolved paths. -/
theorem from_hf_ok_inversion (o : HubOracle) (model cache_dir : String)
    (cfg : LLMRuntimeConfig)
    (hok : from_hf_local_cache o model cache_dir = .ok cfg) :
    ensureAllWithin o cache_dir
      [o.get "tokenizer.json", o.get "tokenizer_config.json", o.get "config.json",
        o.get "model.safetensors.index.json", o.get "model.safetensors"] = .ok () ∧
    (∀ d,
      (if (o.get "model.safetensors").isNone then
        (o.get "model.safetensors.index.json").bind o.parent
      else none) = some d → ensure_within_cache o d cache_dir = .ok ()) ∧
    configPaths cfg = resolvedHubPaths o := by
  simp only [from_hf_local_cache] at hok
  cases hval : validate_model_name model with
  | error e => simp only [hval] at hok; exact absurd hok (by simp)
  | ok u0 =>
    cases u0
    simp only [hval] at hok
    cases hall : ensureAllWithin o cache_dir
        [o.get "tokenizer.json", o.get "tokenizer_config.json", o.get "config.json",
          o.get "model.safetensors.index.json", o.get "model.safetensors"] with
    | error e => simp only [hall] at hok; exact absurd hok (by simp)
    | ok u1 =>
      cases u1
      simp only [hall] at hok
      cases hmd : (if (o.get "model.safetensors").isNone then
          (o.get "model.safetensors.index.json").bind o.parent
        else none) with
      | none =>
        simp only [hmd] at hok
        cases hreq : ((o.get "tokenizer.json").isNone ||
            ((o.get "model.safetensors").isNone && (none : Option String).isNone)) with
        | true => rw [hreq] at hok; simp at hok
        | false =>
          simp only [hreq, Bool.false_eq_true, if_false] at hok
          have hcfg := Except.ok.inj hok
          subst hcfg
          refine ⟨rfl, ?_, ?_⟩
          · intro d hd
            simp at hd
          · simp only [configPaths, resolvedHubPaths]
            rw [hmd]
      | some d0 =>
        cases hed : ensure_within_cache o d0 cache_dir with
        | error e => simp only [hmd, hed] at hok; exact absurd hok (by simp)
        | ok u2 =>
          cases u2
          simp only [hmd, hed] at hok
          cases hreq : ((o.get "tokenizer.json").isNone ||
              ((o.get "model.safetensors").isNone && (some d0).isNone)) with
          | true => rw [hreq] at hok; simp at hok
          | false =>
            simp only [hreq, Bool.false_eq_true, if_false] at hok
            have hcfg := Except.ok.inj hok
            subst hcfg
            refine ⟨rfl, ?_, ?_⟩
            · intro d hd
              cases Option.some.inj hd
              exact hed
            · simp only [configPaths, resolvedHubPaths]
              rw [hmd]


/-- C6: every path in a configuration returned by from_hf_local_cache
canonicalizes under the canonicalized cache root, and if any resolved
path canonicalizes outside the root the call returns an error instead of
a configuration. -/
theorem hub_cache_paths_canonicalize_within (o : HubOracle)
    (model cache_dir : String) (cfg : LLMRuntimeConfig)
    (hok : from_hf_local_cache o model cache_dir = .ok cfg) :
    (∀ popt ∈ configPaths cfg, ∀ p, popt = some p → withinCache o cache_dir p) ∧
    (∀ p, some p ∈ resolvedHubPaths o → ¬ outsideCache o cache_dir p) := by
  obtain ⟨hall, hdir, hpaths⟩ := from_hf_ok_inversion o model cache_dir cfg hok
  have hwithin : ∀ popt ∈ configPaths cfg, ∀ p, popt = some p →
      withinCache o cache_dir p := by
    intro popt hmem p hp
    subst hp
    rw [hpaths] at hmem
    simp only [resolvedHubPaths, List.mem_cons, List.mem_nil_iff, or_false] at hmem
    rcases hmem with h1 | h2 | h3 | h4 | h5 | h6
    · exact ensureAllWithin_ok o cache_dir _ hall p (by simp [h1.symm])
    · exact ensureAllWithin_ok o cache_dir _ hall p (by simp [h2.symm])
    · exact ensureAllWithin_ok o cache_dir _ hall p (by simp [h3.symm])
    · exact ensureAllWithin_ok o cache_dir _ hall p (by simp [h4.symm])
    · exact ensureAllWithin_ok o cache_dir _ hall p (by simp [h5.symm])
    · exact ensure_within_cache_ok o p cache_dir (hdir p h6.symm)
  refine ⟨hwithin, ?_⟩
  intro p hmem hout
  obtain ⟨c, root, hc, hroot, hfalse⟩ := hout
  obtain ⟨c2, root2, hc2, hroot2, htrue⟩ :=
    hwithin p (by rw [hpaths]; exact hmem) p rfl
  rw [hc] at hc2
  rw [hroot] at hroot2
  cases Option.some.inj hc2
  cases Option.some.inj hroot2
  rw [hfalse] at htrue
  cases htrue

/-- A hub oracle over a well-formed cache: every artifact resolves under
the root and canonicalization is the identity. -/
def goodHubOracle : HubOracle :=
  { get := fun f => some ("/cache/models/" ++ f)
    canonicalize := fun p => some p
    parent := fun _ => some "/cache/models" }

/-- C6 witness for hub_cache_paths_canonicalize_within on a concrete
oracle whose resolution succeeds. -/
theorem hub_cache_paths_canonicalize_within_witness :
    withinCache goodHubOracle "/cache" "/cache/models/tokenizer.json" := by
  have h := hub_cache_paths_canonicalize_within goodHubOracle "org/model" "/cache"
    { name := "org/model"
      tokenizer_file := some "/cache/models/tokenizer.json"
      tokenizer_config_file := some "/cache/models/tokenizer_config.json"
      model_config_file := some "/cache/models/config.json"
      model_index_file := some "/cache/models/model.safetensors.index.json"
      model_file := some "/cache/models/model.safetensors"
      model_dir := none
      template_file := none } (by rfl)
  exact h.1 (some "/cache/models/tokenizer.json") (by simp [configPaths])
    "/cache/models/tokenizer.json" rfl

end PluginLLM

namespace PluginLLM

/-- C9: when the generation loop returns usage for a Prompt, its
prompt_tokens is the number of ids the tokenizer produced for the
rendered prompt, its completion_tokens is the number of generated tokens
(the prefill-sampled token plus every loop token), and total_tokens is
their sum. -/
theorem local_usage_accounting (st : LocalState) (o : LocalOracle) (p : PromptData)
    (u : TokenUsage) (h : (localRun st o p).result = .ok (some u)) :
    ∃ processed tokens t0,
      localProcessedMessage st o p = .ok processed ∧
      o.encode processed = some tokens ∧
      o.prefill tokens = some t0 ∧
      u.prompt_tokens = tokens.length ∧
      u.completion_tokens = (localGeneratedTokens o t0 tokens (p.max_tokens.getD 500)
        (localResolvedEosIds st.eos_tokens o.vocab)).length ∧
      u.total_tokens = u.prompt_tokens + u.completion_tokens := by
  cases hproc : localProcessedMessage st o p with
  | error e => simp [localRun, hproc] at h
  | ok processed =>
    cases henc : o.encode processed with
    | none => simp [localRun, hproc, henc] at h
    | some tokens =>
      cases hpre : o.prefill tokens with
      | none => simp [localRun, hproc, henc, hpre] at h
      | some t0 =>
        cases hloop : localGenLoop o tokens (localResolvedEosIds st.eos_tokens o.vocab)
            (p.max_tokens.getD 500) [t0] with
        | mk loopToks sampleErr =>
          cases sampleErr with
          | true => simp [localRun, hproc, henc, hpre, hloop] at h
          | false =>
            have hres : (localRun st o p).result =
                .ok (some ⟨tokens.length, (t0 :: loopToks).length,
                  tokens.length + (t0 :: loopToks).length⟩) := by
              simp [localRun, hproc, henc, hpre, hloop]
            have hu := Option.some.inj (Except.ok.inj (h.symm.trans hres))
            subst hu
            refine ⟨processed, tokens, t0, rfl, henc, hpre, rfl, ?_, rfl⟩
            simp [localGeneratedTokens, hloop]

/-- The prompt used by the concrete usage-accounting run. -/
def c9Prompt : PromptData := ⟨[⟨"user", "Hi"⟩], [], none, none, some 5, none⟩

/-- A sampling oracle that encodes the processed message as its bytes,
prefills token 10 and then counts upward until the EOS id 13. -/
def c9Oracle : LocalOracle :=
  { encode := fun s => some (utf8Bytes s)
    decode := fun _ => ""
    renderTemplate := fun _ _ => none
    prefill := fun _ => some 10
    next := fun _ all => some (10 + all.length)
    vocab := [("</s>", 13)] }

/-- C9 witness for local_usage_accounting on a concrete run: eight prompt
bytes, four generated tokens, total twelve. -/
theorem local_usage_accounting_witness :
    ∃ processed tokens t0,
      localProcessedMessage (localInit ⟨"Mock", none, none, none⟩) c9Oracle c9Prompt =
        .ok processed ∧
      c9Oracle.encode processed = some tokens ∧
      c9Oracle.prefill tokens = some t0 ∧
      (8 : Nat) = tokens.length ∧
      (4 : Nat) = (localGeneratedTokens c9Oracle t0 tokens
        (c9Prompt.max_tokens.getD 500)
        (localResolvedEosIds (localInit ⟨"Mock", none, none, none⟩).eos_tokens
          c9Oracle.vocab)).length ∧
      (12 : Nat) = 8 + 4 := by
  exact local_usage_accounting (localInit ⟨"Mock", none, none, none⟩) c9Oracle
    c9Prompt ⟨8, 4, 12⟩ rfl

/-- C3: with the spec-modelled post-pass in place, a parser whose parse of
the fully decoded output is a non-empty call list makes execute emit the
stream, then exactly one ToolCall chunk whose id is one past the last
chunk and whose data is the JSON encoding of the calls, and then the
terminal End. -/
theorem toolcall_postpass_emission (st : LocalState) (o : LocalOracle)
    (f : String → Option (List ToolCall)) (p : PromptData)
    (usage : Option TokenUsage) (calls : List ToolCall)
    (hok : (localRun st o p).result = .ok usage)
    (hparse : f (o.decode (localRun st o p).generated) = some calls)
    (hne : calls ≠ []) :
    localExecuteWithToolCalls st o (some f) p =
      ((localRun st o p).sent ++
        [Query.Chunk (localRun st o p).sent.length (toolCallsJsonBytes calls)
          p.timestamp .toolCall,
         Query.End usage], .ok ()) := by
  have hempty : calls.isEmpty = false := by
    cases calls with
    | nil => exact absurd rfl hne
    | cons a l => rfl
  simp [localExecuteWithToolCalls, hok, toolCallPostPass, hparse, hempty]

/-- The prompt used by the concrete post-pass run. -/
def c3Prompt : PromptData := ⟨[⟨"user", "Hi"⟩], [], none, none, some 1, none⟩

/-- An oracle whose decoded output is a single well-formed Qwen3 tool
call; generation stops at the EOS id 99 right after prefill. -/
def c3Oracle : LocalOracle :=
  { encode := fun _ => some [1]
    decode := fun _ => "<tool_call>\x7b\"name\":\"f\",\"arguments\":1\x7d</tool_call>"
    renderTemplate := fun _ _ => none
    prefill := fun _ => some 0
    next := fun _ _ => some 99
    vocab := [("</s>", 99)] }

/-- C3 witness for toolcall_postpass_emission on a concrete run with the
embedded Qwen3 parser. -/
theorem toolcall_postpass_emission_witness :
    localExecuteWithToolCalls (localInit ⟨"M", none, none, none⟩) c3Oracle
      (some qwen3ParseToolCalls) c3Prompt =
      ((localRun (localInit ⟨"M", none, none, none⟩) c3Oracle c3Prompt).sent ++
        [Query.Chunk
          (localRun (localInit ⟨"M", none, none, none⟩) c3Oracle c3Prompt).sent.length
          (toolCallsJsonBytes [⟨"call_0", "f", Json.num "1"⟩])
          c3Prompt.timestamp .toolCall,
         Query.End (some ⟨1, 2, 3⟩)], .ok ()) := by
  exact toolcall_postpass_emission (localInit ⟨"M", none, none, none⟩) c3Oracle
    qwen3ParseToolCalls c3Prompt (some ⟨1, 2, 3⟩) [⟨"call_0", "f", Json.num "1"⟩]
    rfl rfl (by simp)

end PluginLLM
